import Mathlib

/-!
Verification development for the thymer-flashcards plugin (src/plugin.js).

The plugin stores one FSRS scheduling record ("Card") per flashcard line item
as `fc_*` meta properties, collects the due cards, and runs a practice
session that applies the ts-fsrs scheduler to each rated card and writes the
result back.

The embedding below translates the plugin's own code (metaToCard, cardToMeta,
parseFlashcard, hasCardMeta, _collectDueCards, _startPracticeSession,
_rateCard, _renderCurrentCard, generateFlashcards) into Lean definitions.
JavaScript dynamic values read from stored meta properties are modelled by
`JsVal`; a JS number that may be `NaN` is modelled by `Option ℚ` with `none`
standing for `NaN`, and a `Date` that may be an Invalid Date by `Option ℤ`
(epoch milliseconds) with `none` standing for Invalid Date.

The ts-fsrs library itself (`f.next`, `f.repeat`, `createEmptyCard`) is an
external dependency whose source is not part of the repository; it is
modelled from the spec (sections 4.1 and 4.2), as marked on each of those
definitions.
-/

namespace Flashcards

/-! ## JavaScript value model for stored meta properties -/

/-- A dynamic JavaScript value as it can appear in a line item's stored meta
properties.  `missing` is `undefined` (the key is absent), `nullv` is `null`,
`num` a finite number, `isoDate` an ISO 8601 timestamp string denoting the
instant `ms` (epoch milliseconds), and `junkStr` a string that parses
neither as a number nor as a date. -/
inductive JsVal where
  | missing
  | nullv
  | num (q : ℚ)
  | isoDate (ms : ℤ)
  | junkStr (s : String)
  deriving DecidableEq

/-- JS `Number(v)`: `none` models `NaN`.  `Number(undefined)` is `NaN`,
`Number(null)` is `0`, an ISO timestamp string and other non-numeric strings
give `NaN`. -/
def jsNumber : JsVal → Option ℚ
  | .missing => none
  | .nullv => some 0
  | .num q => some q
  | .isoDate _ => none
  | .junkStr _ => none

/-- JS `new Date(v)`: `none` models an Invalid Date.  `new Date(undefined)`
is invalid, `new Date(null)` is the epoch, a finite number is a millisecond
timestamp (truncated to an integer), an ISO string parses to its instant,
and an unparsable string gives an Invalid Date. -/
def jsDate : JsVal → Option ℤ
  | .missing => none
  | .nullv => some 0
  | .num q => some ⌊q⌋
  | .isoDate ms => some ms
  | .junkStr _ => none

/-- JS truthiness of a stored value (`undefined`, `null`, `0` and the empty
string are falsy; every nonempty string, in particular an ISO timestamp, is
truthy). -/
def jsTruthy : JsVal → Bool
  | .missing => false
  | .nullv => false
  | .num q => decide (q ≠ 0)
  | .isoDate _ => true
  | .junkStr s => decide (s ≠ "")

/-- JS loose `v != null`: true unless the value is `null` or `undefined`. -/
def jsNonNull : JsVal → Bool
  | .missing => false
  | .nullv => false
  | _ => true

/-- JS `x || 0` applied to the result of `Number(...)`: `NaN` (and `0`
itself) collapse to `0`. -/
def orZero : Option ℚ → ℚ
  | none => 0
  | some q => q

/-- JS `x ?? d` applied to the result of `Number(...)`: the `??` operator
substitutes `d` only for `null`/`undefined`, and `Number` never returns
those (an unparsable value gives `NaN`), so the left operand is always taken
and a `NaN` (here `none`) passes through unchanged. -/
def nanCoalesce (x : Option ℚ) (_d : ℚ) : Option ℚ := x

/-- Numeric code of the ts-fsrs `State.New` enum member. -/
def stateNewNum : ℚ := 0

/-! ## Stored meta properties and line items -/

/-- The `fc_*` meta properties of a line item (META, src/plugin.js:19).
Each field holds the raw stored JS value; an absent key is `missing`. -/
structure Props where
  due : JsVal := .missing
  stability : JsVal := .missing
  difficulty : JsVal := .missing
  reps : JsVal := .missing
  lapses : JsVal := .missing
  state : JsVal := .missing
  last_review : JsVal := .missing
  elapsed_days : JsVal := .missing
  scheduled_days : JsVal := .missing
  learning_steps : JsVal := .missing
  deriving DecidableEq

/-- A line item: its text segments (each segment's `text` field may be
absent) and its meta properties object, which may itself be absent.  Text is
modelled as a list of characters. -/
structure LineItem where
  segments : List (Option (List Char))
  props : Option Props
  deriving DecidableEq

/-- segmentsToText (src/plugin.js:39): concatenate the segments' texts,
an absent text contributing the empty string. -/
def segmentsToText (segments : List (Option (List Char))) : List Char :=
  (segments.map (fun s => s.getD [])).flatten

/-- Split a text at the first occurrence of the separator `::`
(SEPARATOR, src/plugin.js:13): `none` models `indexOf` returning `-1`;
otherwise the pieces before the first occurrence and after it, matching
`text.slice(0, idx)` and `text.slice(idx + 2)` in the source. -/
def splitSep : List Char → Option (List Char × List Char)
  | [] => none
  | ':' :: ':' :: rest => some ([], rest)
  | c :: rest => (splitSep rest).map (fun p => (c :: p.1, p.2))

/-- Whether a character is whitespace for the purposes of JS
`String.prototype.trim`. -/
def isWs (c : Char) : Bool := c = ' ' || c = '\t' || c = '\n' || c = '\r'

/-- JS `trim()`: strip leading and trailing whitespace. -/
def trimChars (l : List Char) : List Char :=
  ((l.dropWhile isWs).reverse.dropWhile isWs).reverse

/-- parseFlashcard (src/plugin.js:50): split the item's text at the first
occurrence of `::`; both the trimmed question and the trimmed answer must be
nonempty (the empty string is falsy), otherwise the item is not a
flashcard. -/
def parseFlashcard (li : LineItem) : Option (List Char × List Char) :=
  match splitSep (segmentsToText li.segments) with
  | none => none
  | some (q, a) =>
    let question := trimChars q
    let answer := trimChars a
    if question = [] ∨ answer = [] then none else some (question, answer)

/-- hasCardMeta (src/plugin.js:67): `lineItem.props && lineItem.props[fc_due] != null`. -/
def hasCardMeta (li : LineItem) : Bool :=
  match li.props with
  | none => false
  | some p => jsNonNull p.due

/-! ## Card reconstruction and persistence -/

/-- The FSRS Card as reconstructed by `metaToCard` from possibly malformed
stored properties: `due` may be an Invalid Date (`none`), `state` may be
`NaN` (`none`), `last_review` may be absent (outer `none`) or an Invalid
Date (`some none`). -/
structure StoredCard where
  due : Option ℤ
  stability : ℚ
  difficulty : ℚ
  elapsed_days : ℚ
  scheduled_days : ℚ
  reps : ℚ
  lapses : ℚ
  learning_steps : ℚ
  state : Option ℚ
  last_review : Option (Option ℤ)
  deriving DecidableEq

/-- metaToCard (src/plugin.js:76): reconstruct a Card from the stored meta
properties (`lineItem.props || {}`).  Each numeric field is
`Number(p[key]) || 0`; `state` is `Number(p[fc_state]) ?? State.New`;
`last_review` is `p[fc_last_review] ? new Date(p[fc_last_review]) : undefined`. -/
def metaToCard (li : LineItem) : StoredCard :=
  let p := li.props.getD {}
  { due := jsDate p.due
    stability := orZero (jsNumber p.stability)
    difficulty := orZero (jsNumber p.difficulty)
    elapsed_days := orZero (jsNumber p.elapsed_days)
    scheduled_days := orZero (jsNumber p.scheduled_days)
    reps := orZero (jsNumber p.reps)
    lapses := orZero (jsNumber p.lapses)
    learning_steps := orZero (jsNumber p.learning_steps)
    state := nanCoalesce (jsNumber p.state) stateNewNum
    last_review := if jsTruthy p.last_review then some (jsDate p.last_review) else none }

/-- The scheduler's card states (ts-fsrs `State`): New, Learning, Review,
Relearning, with numeric codes 0..3. -/
inductive CState where
  | new
  | learning
  | review
  | relearning
  deriving DecidableEq

/-- Numeric code of a card state as stored by `cardToMeta`. -/
def CState.toNum : CState → ℚ
  | .new => 0
  | .learning => 1
  | .review => 2
  | .relearning => 3

/-- A well-formed FSRS Card as produced by the ts-fsrs scheduler: timestamps
are epoch milliseconds, `last_review` is optional. -/
structure Card where
  due : ℤ
  stability : ℚ
  difficulty : ℚ
  elapsed_days : ℚ
  scheduled_days : ℚ
  reps : ℕ
  lapses : ℕ
  learning_steps : ℕ
  state : CState
  last_review : Option ℤ
  deriving DecidableEq

/-- cardToMeta (src/plugin.js:98): the meta-property values written by
`setMetaProperties` when persisting a Card.  Timestamps are written as ISO
strings (`toISOString`, millisecond precision), numbers as numbers, and an
absent `last_review` as `null`. -/
def cardToMeta (card : Card) : Props :=
  { due := .isoDate card.due
    stability := .num card.stability
    difficulty := .num card.difficulty
    elapsed_days := .num card.elapsed_days
    scheduled_days := .num card.scheduled_days
    reps := .num (card.reps : ℚ)
    lapses := .num (card.lapses : ℚ)
    learning_steps := .num (card.learning_steps : ℚ)
    state := .num card.state.toNum
    last_review :=
      match card.last_review with
      | some t => .isoDate t
      | none => .nullv }

/-- The loose (`StoredCard`) view of a well-formed Card: the value
`metaToCard` is expected to reproduce after a round trip through the stored
meta properties. -/
def storedOfCard (card : Card) : StoredCard :=
  { due := some card.due
    stability := card.stability
    difficulty := card.difficulty
    elapsed_days := card.elapsed_days
    scheduled_days := card.scheduled_days
    reps := (card.reps : ℚ)
    lapses := (card.lapses : ℚ)
    learning_steps := (card.learning_steps : ℚ)
    state := some card.state.toNum
    last_review := card.last_review.map some }

/-- A line item whose stored card fields are all malformed or missing: the
timestamp and every numeric field hold unparsable strings or are absent, and
`fc_state` holds the unparsable string "garbled". -/
def malformedItem : LineItem :=
  { segments := [some "Q :: A".data]
    props := some
      { due := .junkStr "not-a-date"
        stability := .junkStr "abc"
        difficulty := .missing
        reps := .junkStr "x"
        lapses := .missing
        state := .junkStr "garbled"
        last_review := .missing
        elapsed_days := .junkStr "y"
        scheduled_days := .missing
        learning_steps := .junkStr "z" } }

/-! ## The scheduler (ts-fsrs), modelled from the spec

The repository configures ts-fsrs with `request_retention: 0.9`,
`maximum_interval: 365`, `enable_fuzz: true`, `enable_short_term: true`
(src/plugin.js:5) and only ever calls `f.repeat`, `f.next` and
`createEmptyCard`.  The library's source is not part of the repository, so
the functions below are modelled from the spec (sections 4.1, 4.2 and the
data-model section). -/

/-- A user rating (ts-fsrs `Rating`/`Grade`): Again, Hard, Good, Easy. -/
inductive Grade where
  | again
  | hard
  | good
  | easy
  deriving DecidableEq

/-- Configured target retention probability (src/plugin.js:6). -/
def requestRetention : ℚ := 9 / 10

/-- Configured maximum interval in days (src/plugin.js:7). -/
def maximumInterval : ℕ := 365

/-- Milliseconds per day. -/
def msPerDay : ℚ := 86400000

/-- Milliseconds in `m` minutes. -/
def minutesToMs (m : ℕ) : ℤ := (m : ℤ) * 60000

/-- Milliseconds in `d` days. -/
def daysToMs (d : ℕ) : ℤ := (d : ℤ) * 86400000

/-- Clamp `x` into `[lo, hi]`. -/
def clampQ (lo hi x : ℚ) : ℚ := max lo (min hi x)

/-- Modelled from the spec: retrievability at elapsed days `t` given
stability `S` is the power-law forgetting curve `(1 + t/(9·S))⁻¹`
(guarded against a nonpositive stability, for which the curve is taken to
be fully decayed). -/
def retrievability (t S : ℚ) : ℚ :=
  if S ≤ 0 then 0 else 1 / (1 + t / (9 * S))

/-- Modelled from the spec: first stabilization after New or after a lapse
gives a rating-dependent initial stability in days. -/
def initStability : Grade → ℚ
  | .again => 2 / 5
  | .hard => 3 / 5
  | .good => 12 / 5
  | .easy => 29 / 5

/-- Modelled from the spec: the initial baseline difficulty for a first
rating (higher for worse ratings), within [1,10]. -/
def initDifficulty : Grade → ℚ
  | .again => 8
  | .hard => 7
  | .good => 5
  | .easy => 3

/-- Modelled from the spec: the rating-dependent difficulty delta — Again
raises difficulty, Easy lowers it. -/
def gradeDelta : Grade → ℚ
  | .again => 2
  | .hard => 1
  | .good => 0
  | .easy => -1

/-- Modelled from the spec: difficulty update — apply the rating-dependent
delta, revert the result toward the initial Good baseline (so repeated easy
ratings gradually reduce perceived difficulty and vice versa), and clamp to
[1,10]. -/
def nextDifficulty (d : ℚ) (g : Grade) : ℚ :=
  clampQ 1 10 ((9 / 10) * (d + gradeDelta g) + (1 / 10) * initDifficulty .good)

/-- Modelled from the spec: the rating-dependent factor scaling stability
growth on a successful Review recall. -/
def gradeBonus : Grade → ℚ
  | .again => 0
  | .hard => 1 / 2
  | .good => 1
  | .easy => 2

/-- Modelled from the spec: successful recall in Review grows stability
multiplicatively, scaled by current difficulty (easier items grow more),
retrievability at review time (lower retrievability grows more) and the
rating. -/
def nextStabilitySuccess (d S r : ℚ) (g : Grade) : ℚ :=
  S * (1 + (11 - d) * (1 - r) * gradeBonus g / 10)

/-- Modelled from the spec: failed recall (Again in Review) shrinks
stability via a lapse-decay factor, kept positive. -/
def nextStabilityLapse (S : ℚ) : ℚ := max (2 / 5) (S / 2)

/-- Modelled from the spec: `intervalDays = 9·S·(1/targetRetention − 1)`,
rounded to an integer day count and clamped to `[1, maximumInterval]`. -/
def rawInterval (S : ℚ) : ℕ :=
  (max 1 (min (maximumInterval : ℤ) (round (9 * S * (1 / requestRetention - 1))))).toNat

/-- Modelled from the spec: the deterministic pseudo-random generator behind
the interval fuzz — a linear congruential step on the seed. -/
def prng (seed : ℕ) : ℕ := (seed * 1103515245 + 12345) % 32768

/-- Modelled from the spec: the fuzz seed is derived from the card being
scheduled and the review instant, so outcomes are reproducible for identical
inputs. -/
def fuzzSeed (c : Card) (now : ℤ) : ℕ := now.natAbs + 31 * c.reps

/-- Modelled from the spec: bounded multiplicative jitter applied to
intervals above a minimum threshold, sourced from the seeded generator and
clamped back into `[1, maximumInterval]`. -/
def applyFuzz (seed ivl : ℕ) : ℕ :=
  if ivl < 3 then ivl
  else
    let spread := max 1 (ivl / 20)
    let off := prng seed % (2 * spread + 1)
    min maximumInterval (max 1 (ivl + off - spread))

/-- Modelled from the spec: the sub-day learning step durations in minutes
(short-term scheduling is enabled by the configuration). -/
def stepMinutes : ℕ → ℕ
  | 0 => 1
  | _ => 10

/-- Modelled from the spec: the number of learning steps before graduation. -/
def learningStepCount : ℕ := 2

/-- Modelled from the spec: days elapsed since the last review at instant
`now` (0 when the card has never been reviewed). -/
def elapsedDaysOf (c : Card) (now : ℤ) : ℚ :=
  match c.last_review with
  | none => 0
  | some lr => ((now - lr : ℤ) : ℚ) / msPerDay

/-- Modelled from the spec: commit a card to the Review state — size the
interval from the new stability, fuzz it, and set the due instant a whole
number of days ahead. -/
def toReview (base : Card) (now : ℤ) (seed : ℕ) (S d : ℚ) : Card :=
  let ivl := applyFuzz seed (rawInterval S)
  { base with
    stability := S
    difficulty := d
    state := .review
    learning_steps := 0
    scheduled_days := (ivl : ℚ)
    due := now + daysToMs ivl }

/-- Modelled from the spec: put a card on a (re)learning step — sub-day
granularity, due a few minutes ahead, no whole-day interval scheduled. -/
def toStep (base : Card) (now : ℤ) (st : CState) (S d : ℚ) (step : ℕ) : Card :=
  { base with
    stability := S
    difficulty := d
    state := st
    learning_steps := step
    scheduled_days := 0
    due := now + minutesToMs (stepMinutes step) }

/-- Modelled from the spec: `Scheduler.apply(card, rating, now)` — the
ts-fsrs `f.next` step under the repository's configuration.  Sets
`elapsed_days` to the days since the last review, `last_review` to `now`,
increments `reps`, and transitions the state machine: New enters Learning
(Easy graduates immediately); Learning/Relearning restart on Again, advance
or graduate on Hard/Good, graduate early on Easy; Review lapses to
Relearning on Again (incrementing `lapses`, shrinking stability, raising
difficulty) and otherwise stays in Review with stability grown via the
memory model and a fuzzed whole-day interval. -/
def fsrsNext (c : Card) (now : ℤ) (g : Grade) : Card :=
  let elapsed := elapsedDaysOf c now
  let seed := fuzzSeed c now
  let base : Card :=
    { c with elapsed_days := elapsed, reps := c.reps + 1, last_review := some now }
  match c.state with
  | .new =>
    match g with
    | .easy => toReview base now seed (initStability .easy) (initDifficulty .easy)
    | .again => toStep base now .learning (initStability .again) (initDifficulty .again) 0
    | .hard => toStep base now .learning (initStability .hard) (initDifficulty .hard) 0
    | .good => toStep base now .learning (initStability .good) (initDifficulty .good) 1
  | .learning | .relearning =>
    match g with
    | .again => toStep base now c.state c.stability (nextDifficulty c.difficulty .again) 0
    | .hard => toStep base now c.state c.stability (nextDifficulty c.difficulty .hard) c.learning_steps
    | .good =>
      if c.learning_steps + 1 < learningStepCount then
        toStep base now c.state c.stability (nextDifficulty c.difficulty .good) (c.learning_steps + 1)
      else
        toReview base now seed c.stability (nextDifficulty c.difficulty .good)
    | .easy => toReview base now seed c.stability (nextDifficulty c.difficulty .easy)
  | .review =>
    match g with
    | .again =>
      { toStep base now .relearning (nextStabilityLapse c.stability)
          (nextDifficulty c.difficulty .again) 0 with
        lapses := c.lapses + 1 }
    | _ =>
      toReview base now seed
        (nextStabilitySuccess c.difficulty c.stability (retrievability elapsed c.stability) g)
        (nextDifficulty c.difficulty g)

/-- The record returned by the preview operation: one scheduled Card per
rating. -/
structure RecordLog where
  again : Card
  hard : Card
  good : Card
  easy : Card
  deriving DecidableEq

/-- Look up the preview record at a rating (`preview[rating]`). -/
def RecordLog.get (r : RecordLog) : Grade → Card
  | .again => r.again
  | .hard => r.hard
  | .good => r.good
  | .easy => r.easy

/-- Modelled from the spec: `f.repeat(card, now)` — the preview over all
four ratings, computed by running the same scheduling step once per rating,
without touching the input card. -/
def fsrsRepeat (c : Card) (now : ℤ) : RecordLog :=
  { again := fsrsNext c now .again
    hard := fsrsNext c now .hard
    good := fsrsNext c now .good
    easy := fsrsNext c now .easy }

/-- Modelled from the spec: `createEmptyCard(now)` — a Card created empty on
first encounter: state New, all counters and model fields zero, due
immediately (at its creation instant), never reviewed. -/
def createEmptyCard (now : ℤ) : Card :=
  { due := now
    stability := 0
    difficulty := 0
    elapsed_days := 0
    scheduled_days := 0
    reps := 0
    lapses := 0
    learning_steps := 0
    state := .new
    last_review := none }

/-! ## Due-set collection (_collectDueCards) -/

/-- A note record: its guid, display name, and its line items —
`getLineItems()` can throw, modelled by `none`, in which case the record is
skipped. -/
structure NoteRecord where
  guid : String
  name : String
  lineItems : Option (List LineItem)
  deriving DecidableEq

/-- An entry of the due list built by `_collectDueCards`
(src/plugin.js:787): the line item, its reconstructed card, the parsed
question and answer, and the record's name. -/
structure DueEntry where
  lineItem : LineItem
  card : StoredCard
  question : List Char
  answer : List Char
  recordName : String
  deriving DecidableEq

/-- JS `card.due <= now` where `card.due` is a Date: an Invalid Date
compares as `NaN`, so every comparison with it is false. -/
def dueLe (d : Option ℤ) (now : ℤ) : Bool :=
  match d with
  | none => false
  | some t => t ≤ now

/-- The sort key used by the comparator `a.card.due.getTime() -
b.card.due.getTime()` (src/plugin.js:799).  Every entry of the due list has
a valid due date (an Invalid Date never passes `due <= now`), so the
default is never taken. -/
def dueKey (e : DueEntry) : ℤ := e.card.due.getD 0

/-- Boolean ascending-due comparison between entries. -/
def dueLeB (a b : DueEntry) : Bool := decide (dueKey a ≤ dueKey b)

/-- The due entries contributed by one record (the inner loop of
`_collectDueCards`, src/plugin.js:780): parseable flashcard items that carry
card metadata and whose due instant is at or before `now`. -/
def recordDueEntries (now : ℤ) (r : NoteRecord) : List DueEntry :=
  match r.lineItems with
  | none => []
  | some lis =>
    lis.filterMap (fun li =>
      match parseFlashcard li with
      | none => none
      | some (q, a) =>
        if hasCardMeta li then
          let card := metaToCard li
          if dueLe card.due now then some ⟨li, card, q, a, r.name⟩ else none
        else none)

/-- The unsorted due list built by the loops of `_collectDueCards`: records
outside the optional guid filter set are skipped, as are records whose
`getLineItems()` throws. -/
def dueCandidates (records : List NoteRecord) (recordGuids : Option (List String))
    (now : ℤ) : List DueEntry :=
  (records.filter (fun r =>
    match recordGuids with
    | none => true
    | some gs => gs.contains r.guid)).flatMap (recordDueEntries now)

/-- _collectDueCards (src/plugin.js:764): the due list, sorted oldest due
first.  `Array.prototype.sort` is a stable sort, modelled by
`List.mergeSort`. -/
def collectDueCards (records : List NoteRecord) (recordGuids : Option (List String))
    (now : ℤ) : List DueEntry :=
  (dueCandidates records recordGuids now).mergeSort dueLeB

/-! ## The practice session (_startPracticeSession, _rateCard, _renderCurrentCard) -/

/-- The per-rating counters `_practiceStats` (src/plugin.js:616). -/
structure Stats where
  again : ℕ
  hard : ℕ
  good : ℕ
  easy : ℕ
  deriving DecidableEq

/-- Increment the counter of one rating. -/
def Stats.bump (s : Stats) : Grade → Stats
  | .again => { s with again := s.again + 1 }
  | .hard => { s with hard := s.hard + 1 }
  | .good => { s with good := s.good + 1 }
  | .easy => { s with easy := s.easy + 1 }

/-- Read the counter of one rating. -/
def Stats.count (s : Stats) : Grade → ℕ
  | .again => s.again
  | .hard => s.hard
  | .good => s.good
  | .easy => s.easy

/-- Total number of recorded ratings. -/
def Stats.total (s : Stats) : ℕ := s.again + s.hard + s.good + s.easy

/-- An entry of the session queue: an opaque key identifying the underlying
line item, the card being scheduled, and the display payload. -/
structure Entry where
  key : ℕ
  card : Card
  question : List Char
  answer : List Char
  deriving DecidableEq

/-- The in-memory session state held by the plugin during practice:
`_dueCards`, `_practiceIndex`, `_practiceRevealed`, `_practiceStats`. -/
structure Session where
  dueCards : List Entry
  practiceIndex : ℕ
  practiceRevealed : Bool
  stats : Stats
  deriving DecidableEq

/-- _startPracticeSession (src/plugin.js:611): a fresh session over the due
list — cursor at 0, answer hidden, all counters zero. -/
def startPracticeSession (entries : List Entry) : Session :=
  { dueCards := entries
    practiceIndex := 0
    practiceRevealed := false
    stats := ⟨0, 0, 0, 0⟩ }

/-- The session is complete when the cursor is at or past the end of the
queue (the `idx >= cards.length` condition guarding both the completion
screen, src/plugin.js:873, and the `_rateCard` early return,
src/plugin.js:1050). -/
def sessionComplete (s : Session) : Prop := s.dueCards.length ≤ s.practiceIndex

/-- _rateCard (src/plugin.js:1047): if the session is complete this is an
early return; otherwise apply `f.next` to the current entry's card at `now`,
persist the new card (the save request is the second component of the
result; `saveOk` is the boolean the persistence call resolves to, which the
source awaits and discards), increment the rated counter, advance the
cursor, and hide the answer again.  The returned pair is everything the
caller can observe of one rating step. -/
def rateCard (s : Session) (grade : Grade) (now : ℤ) (_saveOk : Bool) :
    Session × Option (ℕ × Card) :=
  if h : s.practiceIndex < s.dueCards.length then
    let entry := s.dueCards.get ⟨s.practiceIndex, h⟩
    let newCard := fsrsNext entry.card now grade
    ({ s with
        stats := s.stats.bump grade
        practiceIndex := s.practiceIndex + 1
        practiceRevealed := false },
     some (entry.key, newCard))
  else (s, none)

/-- What `_renderCurrentCard` (src/plugin.js:835) puts on screen: the
no-cards-due screen, the session-complete screen (with the counters and the
reviewed total), or the current entry — with the four-rating preview
computed via `f.repeat` only once the answer is revealed. -/
inductive View where
  | noDue
  | done (stats : Stats) (total : ℕ)
  | showCard (idx total : ℕ) (entry : Entry) (revealed : Bool) (preview : Option RecordLog)
  deriving DecidableEq

/-- _renderCurrentCard (src/plugin.js:835): an empty queue shows the
no-cards-due screen; a cursor past the end shows the completion screen with
the session counters and `total = cards.length` reviewed; otherwise the
current entry is shown, with the `f.repeat` preview when revealed. -/
def renderCurrentCard (s : Session) (now : ℤ) : View :=
  let total := s.dueCards.length
  if total = 0 then .noDue
  else if h : s.practiceIndex < total then
    let entry := s.dueCards.get ⟨s.practiceIndex, h⟩
    .showCard s.practiceIndex total entry s.practiceRevealed
      (if s.practiceRevealed then some (fsrsRepeat entry.card now) else none)
  else .done s.stats total

/-! ## Flashcard generation (generateFlashcards) -/

/-- The counters reported by the generation toaster (src/plugin.js:402). -/
structure GenCounts where
  scanned : ℕ
  created : ℕ
  existing : ℕ
  deriving DecidableEq

/-- Componentwise sum of generation counters. -/
def GenCounts.add (a b : GenCounts) : GenCounts :=
  ⟨a.scanned + b.scanned, a.created + b.created, a.existing + b.existing⟩

/-- The per-item step of `generateFlashcards` (src/plugin.js:385): an item
that does not parse as a flashcard is untouched; a parsed item that already
has card metadata is untouched; otherwise a fresh empty card is initialized
and persisted onto the item's meta properties. -/
def genItem (now : ℤ) (li : LineItem) : LineItem :=
  match parseFlashcard li with
  | none => li
  | some _ =>
    if hasCardMeta li then li
    else { li with props := some (cardToMeta (createEmptyCard now)) }

/-- The inner loop of `generateFlashcards` over one record's line items:
the updated items together with the scanned/created/existing counts. -/
def itemPass (now : ℤ) : List LineItem → List LineItem × GenCounts
  | [] => ([], ⟨0, 0, 0⟩)
  | li :: lis =>
    let rest := itemPass now lis
    match parseFlashcard li with
    | none => (li :: rest.1, rest.2)
    | some _ =>
      if hasCardMeta li then
        (li :: rest.1,
         { rest.2 with scanned := rest.2.scanned + 1, existing := rest.2.existing + 1 })
      else
        ({ li with props := some (cardToMeta (createEmptyCard now)) } :: rest.1,
         { rest.2 with scanned := rest.2.scanned + 1, created := rest.2.created + 1 })

/-- generateFlashcards (src/plugin.js:370): scan every record (skipping
records whose `getLineItems()` throws), initialize a card on every parsed
flashcard item that has none, and accumulate the counts shown in the
toaster. -/
def generateFlashcards (now : ℤ) : List NoteRecord → List NoteRecord × GenCounts
  | [] => ([], ⟨0, 0, 0⟩)
  | r :: rs =>
    let rest := generateFlashcards now rs
    match r.lineItems with
    | none => (r :: rest.1, rest.2)
    | some lis =>
      let pass := itemPass now lis
      ({ r with lineItems := some pass.1 } :: rest.1, pass.2.add rest.2)

/-! ## Concrete fixtures used by witnesses and counterexamples -/

/-- A tracked flashcard line item with text `txt`, due at instant `n` and in
the Review state. -/
def liDue (n : ℤ) (txt : String) : LineItem :=
  { segments := [some txt.data], props := some { due := .isoDate n, state := .num 2 } }

/-- A note holding four tracked flashcards (two of them due at the same
instant) and one untracked flashcard. -/
def sampleRecord : NoteRecord :=
  { guid := "A"
    name := "noteA"
    lineItems := some [liDue 50 "q1::a1", liDue 10 "q2::a2", liDue 200 "q3::a3", liDue 10 "q4::a4",
                       { segments := [some "q5::a5".data], props := none }] }

/-- The due entry built from the `q2` item of `sampleRecord`. -/
def entryQ2 : DueEntry :=
  ⟨liDue 10 "q2::a2", metaToCard (liDue 10 "q2::a2"), "q2".data, "a2".data, "noteA"⟩

/-- The due entry built from the `q4` item of `sampleRecord`; it is due at
the same instant as `entryQ2` but appears later in the note. -/
def entryQ4 : DueEntry :=
  ⟨liDue 10 "q4::a4", metaToCard (liDue 10 "q4::a4"), "q4".data, "a4".data, "noteA"⟩

/-- A session entry over a freshly created card. -/
def demoEntry (n : ℕ) : Entry :=
  { key := n, card := createEmptyCard 0, question := "q".data, answer := "a".data }

/-- A practice session over three due entries. -/
def demoSession3 : Session := startPracticeSession [demoEntry 1, demoEntry 2, demoEntry 3]

/-- One rating step as the session controller performs it: keep the updated
session, with the save reported successful. -/
def rateStep (s : Session) (g : Grade) : Session := (rateCard s g 0 true).1

/-- The session after rating all three entries Good. -/
def demoAfter3Good : Session := rateStep (rateStep (rateStep demoSession3 .good) .good) .good

/-! ## Claim theorems -/

/-- Claim C1, evaluated at the failing input: for the stored record
`malformedItem`, whose card fields are all malformed or missing, `metaToCard`
does yield 0 for every non-numeric numeric field (stability, difficulty,
elapsed_days, scheduled_days, reps, lapses, learning_steps) — but the
unparsable stored state yields `NaN` (here `none`), not New: the
`Number(p[fc_state]) ?? State.New` fallback is dead code because `Number`
never returns `null`/`undefined`, so the state half of the claim fails on
the code even though it matches the fallback the code itself spells out. -/
theorem metaToCard_malformed_defaults :
    (metaToCard malformedItem).stability = 0 ∧
    (metaToCard malformedItem).difficulty = 0 ∧
    (metaToCard malformedItem).elapsed_days = 0 ∧
    (metaToCard malformedItem).scheduled_days = 0 ∧
    (metaToCard malformedItem).reps = 0 ∧
    (metaToCard malformedItem).lapses = 0 ∧
    (metaToCard malformedItem).learning_steps = 0 ∧
    (metaToCard malformedItem).state = none ∧
    (metaToCard malformedItem).state ≠ some stateNewNum :=
  ⟨rfl, rfl, rfl, rfl, rfl, rfl, rfl, rfl, by decide⟩

/-- Claim C3: for every valid (card, rating, now) with the configuration
fixed, applying a rating is a pure, deterministic function — two
applications of the scheduling step with identical inputs produce identical
output Cards, field by field (due, stability, difficulty, elapsed_days,
scheduled_days, reps, lapses, learning_steps, state, last_review).  The
interval fuzz draws from a generator seeded from the card and the review
instant, so it introduces no call-to-call variation. -/
theorem fsrsNext_deterministic :
    ∀ (c₁ c₂ : Card) (g₁ g₂ : Grade) (t₁ t₂ : ℤ),
      c₁ = c₂ → g₁ = g₂ → t₁ = t₂ →
      (fsrsNext c₁ t₁ g₁).due = (fsrsNext c₂ t₂ g₂).due ∧
      (fsrsNext c₁ t₁ g₁).stability = (fsrsNext c₂ t₂ g₂).stability ∧
      (fsrsNext c₁ t₁ g₁).difficulty = (fsrsNext c₂ t₂ g₂).difficulty ∧
      (fsrsNext c₁ t₁ g₁).elapsed_days = (fsrsNext c₂ t₂ g₂).elapsed_days ∧
      (fsrsNext c₁ t₁ g₁).scheduled_days = (fsrsNext c₂ t₂ g₂).scheduled_days ∧
      (fsrsNext c₁ t₁ g₁).reps = (fsrsNext c₂ t₂ g₂).reps ∧
      (fsrsNext c₁ t₁ g₁).lapses = (fsrsNext c₂ t₂ g₂).lapses ∧
      (fsrsNext c₁ t₁ g₁).learning_steps = (fsrsNext c₂ t₂ g₂).learning_steps ∧
      (fsrsNext c₁ t₁ g₁).state = (fsrsNext c₂ t₂ g₂).state ∧
      (fsrsNext c₁ t₁ g₁).last_review = (fsrsNext c₂ t₂ g₂).last_review := by
  intro c₁ c₂ g₁ g₂ t₁ t₂ hc hg ht
  subst hc; subst hg; subst ht
  exact ⟨rfl, rfl, rfl, rfl, rfl, rfl, rfl, rfl, rfl, rfl⟩

/-- Witness for C3: the determinism theorem applied to a concrete
rating of a fresh card. -/
theorem fsrsNext_deterministic_witness :
    createEmptyCard 0 = createEmptyCard 0 ∧
    (fsrsNext (createEmptyCard 0) 5 .good).due = (fsrsNext (createEmptyCard 0) 5 .good).due :=
  ⟨rfl,
   (fsrsNext_deterministic (createEmptyCard 0) (createEmptyCard 0) .good .good 5 5
      rfl rfl rfl).1⟩

/-- Claim C4: for every card, rating and fixed instant `now`, the Card the
preview operation (`f.repeat`, computed by the revealed-card screen before
the user commits) shows for that rating equals the Card produced by applying
that rating (`f.next`) at the same instant.  Previewing is a pure function
of the card and never mutates it: `fsrsRepeat` only reads its argument. -/
theorem fsrsRepeat_consistent_with_fsrsNext :
    ∀ (c : Card) (now : ℤ) (g : Grade),
      (fsrsRepeat c now).get g = fsrsNext c now g := by
  intro c now g
  cases g <;> rfl

/-- Claim C6: starting a practice session with an empty due list immediately
yields a terminal session — the cursor is already at or past the end of the
(empty) queue, the reported total of reviewed cards is 0, every per-rating
counter is 0, and the rendered screen is the no-cards-due screen, which
shows no entry. -/
theorem startPracticeSession_empty_complete :
    sessionComplete (startPracticeSession []) ∧
    (startPracticeSession []).dueCards.length = 0 ∧
    (startPracticeSession []).stats.total = 0 ∧
    ∀ now : ℤ, renderCurrentCard (startPracticeSession []) now = .noDue :=
  ⟨Nat.le.refl, rfl, rfl, fun _ => rfl⟩

/-- Claim C7: persisting any Card to meta properties (`cardToMeta`) and
reloading it (`metaToCard`) reproduces an equal Card — all numeric fields
exactly, `due` and `last_review` exactly at millisecond precision (the
ISO-string round trip), the state code exactly, and an absent `last_review`
round-trips to absent (stored as `null`, read back as `undefined`). -/
theorem cardToMeta_metaToCard_roundTrip :
    ∀ c : Card,
      metaToCard { segments := [], props := some (cardToMeta c) } = storedOfCard c := by
  intro c
  cases h : c.last_review <;>
    simp [metaToCard, cardToMeta, storedOfCard, jsDate, jsNumber, jsTruthy, orZero,
          nanCoalesce, h]

/-- Claim C9: for every session whose cursor is at or past the end of the
queue, the rating operation is a no-op — the returned session is unchanged
(stats, cursor and reveal flag included) and no save request is issued; the
scheduler branch of `_rateCard` is never reached. -/
theorem rateCard_complete_noop :
    ∀ (s : Session) (g : Grade) (now : ℤ) (ok : Bool),
      sessionComplete s → rateCard s g now ok = (s, none) := by
  intro s g now ok h
  simp [rateCard, Nat.not_lt.mpr h]

/-- Witness for C9: the no-op theorem applied to the fully rated
three-entry session. -/
theorem rateCard_complete_noop_witness :
    sessionComplete demoAfter3Good ∧
    rateCard demoAfter3Good .again 7 true = (demoAfter3Good, none) :=
  ⟨by unfold sessionComplete; decide,
   rateCard_complete_noop demoAfter3Good .again 7 true (by unfold sessionComplete; decide)⟩

/-- Counterexample to claim C2 at a concrete input: the result of a rating
step on the three-entry session is identical whether the save resolves as a
failure (`false`) or a success (`true`) — `_rateCard` awaits the boolean
returned by `setMetaProperties` and discards it — so the step's result
cannot report a save failure to the caller; the session nevertheless
advances on the failed save. -/
theorem rateCard_save_outcome_not_reported :
    rateCard demoSession3 .good 5 false = rateCard demoSession3 .good 5 true ∧
    (rateCard demoSession3 .good 5 false).1.practiceIndex = 1 :=
  ⟨rfl, rfl⟩

/-- Claim C2 as amended: for every rating step on a non-complete session,
the in-memory session still advances (cursor incremented, the rated counter
incremented, answer hidden again) even when the save resolves as a failure —
but the step does not report the save outcome: its entire observable result
is the same for a failed save as for a successful one, so the outcome is
silently dropped rather than surfaced. -/
theorem rateCard_advances_on_save_failure :
    ∀ (s : Session) (g : Grade) (now : ℤ),
      s.practiceIndex < s.dueCards.length →
      (rateCard s g now false).1.practiceIndex = s.practiceIndex + 1 ∧
      (rateCard s g now false).1.stats = s.stats.bump g ∧
      (rateCard s g now false).1.practiceRevealed = false ∧
      rateCard s g now false = rateCard s g now true := by
  intro s g now h
  refine ⟨?_, ?_, ?_, rfl⟩ <;> simp [rateCard, h]

/-- Witness for the amended C2: a rating step with a failed save on the
three-entry session advances the cursor. -/
theorem rateCard_advances_on_save_failure_witness :
    demoSession3.practiceIndex < demoSession3.dueCards.length ∧
    (rateCard demoSession3 .good 5 false).1.practiceIndex = demoSession3.practiceIndex + 1 :=
  ⟨by decide, (rateCard_advances_on_save_failure demoSession3 .good 5 (by decide)).1⟩

/-- Claim C8: each rating step on a non-complete session increments exactly
the counter of its rating and advances the cursor by one; and in the session
built from 3 due entries in which every entry is rated Good, the counters
end at again = hard = easy = 0 and good = 3, the session is complete, and
the completion screen reports a total of 3 reviewed cards. -/
theorem rateCard_counts_three_good :
    (∀ (s : Session) (g : Grade) (now : ℤ) (ok : Bool),
      s.practiceIndex < s.dueCards.length →
      (rateCard s g now ok).1.practiceIndex = s.practiceIndex + 1 ∧
      ∀ g' : Grade,
        (rateCard s g now ok).1.stats.count g'
          = s.stats.count g' + (if g' = g then 1 else 0)) ∧
    demoAfter3Good.stats = ⟨0, 0, 3, 0⟩ ∧
    sessionComplete demoAfter3Good ∧
    renderCurrentCard demoAfter3Good 0 = .done ⟨0, 0, 3, 0⟩ 3 := by
  refine ⟨?_, by decide, by unfold sessionComplete; decide, by decide⟩
  intro s g now ok h
  constructor
  · simp [rateCard, h]
  · intro g'
    cases g <;> cases g' <;> simp [rateCard, h, Stats.bump, Stats.count]

/-- Witness for C8: the per-step theorem applied to the first Good rating of
the three-entry session. -/
theorem rateCard_counts_three_good_witness :
    demoSession3.practiceIndex < demoSession3.dueCards.length ∧
    (rateCard demoSession3 .good 0 true).1.stats.count .good
      = demoSession3.stats.count .good + 1 := by
  have h : demoSession3.practiceIndex < demoSession3.dueCards.length := by decide
  have h2 := (rateCard_counts_three_good.1 demoSession3 .good 0 true h).2 .good
  exact ⟨h, by simpa using h2⟩

/-- The ascending-due comparison is transitive. -/
lemma dueLeB_trans :
    ∀ a b c : DueEntry, dueLeB a b = true → dueLeB b c = true → dueLeB a c = true := by
  intro a b c hab hbc
  simp only [dueLeB, decide_eq_true_eq] at *
  omega

/-- The ascending-due comparison is total. -/
lemma dueLeB_total : ∀ a b : DueEntry, (dueLeB a b || dueLeB b a) = true := by
  intro a b
  simp only [dueLeB, Bool.or_eq_true, decide_eq_true_eq]
  omega

/-- Every entry of the unsorted due list is due at or before `now`, carries
card metadata, and its card is exactly the one reconstructed from its line
item (the collection reads cards, it never writes them). -/
lemma mem_dueCandidates_props {records : List NoteRecord} {rg : Option (List String)}
    {now : ℤ} {e : DueEntry} (he : e ∈ dueCandidates records rg now) :
    dueLe e.card.due now = true ∧ hasCardMeta e.lineItem = true ∧
    e.card = metaToCard e.lineItem := by
  simp only [dueCandidates, List.mem_flatMap, List.mem_filter] at he
  obtain ⟨r, hr, he⟩ := he
  unfold recordDueEntries at he
  cases hli : r.lineItems with
  | none => rw [hli] at he; simp at he
  | some lis =>
    rw [hli] at he
    rw [List.mem_filterMap] at he
    obtain ⟨li, hmem, hfn⟩ := he
    cases hp : parseFlashcard li with
    | none => rw [hp] at hfn; simp at hfn
    | some qa =>
      obtain ⟨q, a⟩ := qa
      rw [hp] at hfn
      by_cases hm : hasCardMeta li = true
      · by_cases hd : dueLe (metaToCard li).due now = true
        · simp only [hm, hd, if_true, Option.some.injEq] at hfn
          subst hfn
          exact ⟨hd, hm, rfl⟩
        · simp [hm, hd] at hfn
      · simp [hm] at hfn

/-- Claim C5: for every record collection, optional scope filter and
instant `now`, `_collectDueCards` returns exactly the tracked entries
(parseable flashcard items carrying card metadata — untracked items are
excluded, as are items whose due is invalid or later than `now`): the
output is a permutation of the filtered input, it is sorted ascending by
due, entries due at the same instant keep their input order (stability,
stated as preservation of two-element sublists with nondecreasing keys),
and every output card is exactly the stored card read by `metaToCard` — no
input card is modified. -/
theorem collectDueCards_sound :
    ∀ (records : List NoteRecord) (rg : Option (List String)) (now : ℤ),
      (collectDueCards records rg now).Perm (dueCandidates records rg now) ∧
      (collectDueCards records rg now).Pairwise (fun a b => dueKey a ≤ dueKey b) ∧
      (∀ e ∈ collectDueCards records rg now,
        dueLe e.card.due now = true ∧ hasCardMeta e.lineItem = true ∧
        e.card = metaToCard e.lineItem) ∧
      (∀ a b : DueEntry, dueKey a ≤ dueKey b →
        [a, b].Sublist (dueCandidates records rg now) →
        [a, b].Sublist (collectDueCards records rg now)) := by
  intro records rg now
  refine ⟨List.mergeSort_perm _ _, ?_, ?_, ?_⟩
  · have h := List.sorted_mergeSort dueLeB_trans dueLeB_total (dueCandidates records rg now)
    exact h.imp (fun hab => by simpa [dueLeB, decide_eq_true_eq] using hab)
  · intro e he
    rw [collectDueCards, List.mem_mergeSort] at he
    exact mem_dueCandidates_props he
  · intro a b hab hsub
    exact List.pair_sublist_mergeSort dueLeB_trans dueLeB_total
      (by simpa [dueLeB] using hab) hsub

/-- Witness for C5: in `sampleRecord`, the entries `q2` and `q4` are due at
the same instant with `q2` first; the collected due list keeps `q2` before
`q4`. -/
theorem collectDueCards_sound_witness :
    dueKey entryQ2 ≤ dueKey entryQ4 ∧
    [entryQ2, entryQ4].Sublist (dueCandidates [sampleRecord] none 100) ∧
    [entryQ2, entryQ4].Sublist (collectDueCards [sampleRecord] none 100) :=
  ⟨by decide, by decide,
   (collectDueCards_sound [sampleRecord] none 100).2.2.2 entryQ2 entryQ4
     (by decide) (by decide)⟩

/-- The flashcard parse of a line item depends only on its text segments,
not on its meta properties. -/
lemma parseFlashcard_props (li : LineItem) (p : Option Props) :
    parseFlashcard { li with props := p } = parseFlashcard li := rfl

/-- A line item that already carries card metadata is untouched by the
generation step. -/
lemma genItem_meta {li : LineItem} (now : ℤ) (hm : hasCardMeta li = true) :
    genItem now li = li := by
  unfold genItem
  cases hp : parseFlashcard li with
  | none => rfl
  | some qa => simp [hm]

/-- After the generation step, every parseable flashcard item carries card
metadata (a fresh card stores its due instant as an ISO string, which is
not null). -/
lemma genItem_tracked {li : LineItem} (now : ℤ)
    (hp : (parseFlashcard li).isSome = true) :
    hasCardMeta (genItem now li) = true := by
  rw [Option.isSome_iff_exists] at hp
  obtain ⟨qa, hp⟩ := hp
  unfold genItem
  rw [hp]
  by_cases hm : hasCardMeta li = true
  · rw [if_pos hm]; exact hm
  · rw [if_neg hm]; rfl

/-- The generation step does not change whether (or how) an item parses as
a flashcard: it only ever writes meta properties. -/
lemma parseFlashcard_genItem (now : ℤ) (li : LineItem) :
    parseFlashcard (genItem now li) = parseFlashcard li := by
  cases hp : parseFlashcard li with
  | none => simp [genItem, hp]
  | some qa =>
    by_cases hm : hasCardMeta li = true
    · simp [genItem, hp, hm]
    · simp [genItem, hp, hm, parseFlashcard_props]

/-- The generation pass over a record's items is the per-item step applied
to each item. -/
lemma itemPass_fst (now : ℤ) (lis : List LineItem) :
    (itemPass now lis).1 = lis.map (genItem now) := by
  induction lis with
  | nil => rfl
  | cons li lis ih =>
    cases hp : parseFlashcard li with
    | none => simp [itemPass, genItem, hp, ih]
    | some qa =>
      by_cases hm : hasCardMeta li = true
      · simp [itemPass, genItem, hp, hm, ih]
      · simp [itemPass, genItem, hp, hm, ih]

/-- When every parseable item of a list already carries card metadata, a
generation pass over it creates no cards. -/
lemma itemPass_created_zero (now : ℤ) (lis : List LineItem)
    (h : ∀ li ∈ lis, (parseFlashcard li).isSome = true → hasCardMeta li = true) :
    (itemPass now lis).2.created = 0 := by
  induction lis with
  | nil => rfl
  | cons li lis ih =>
    have hrest : ∀ li2 ∈ lis, (parseFlashcard li2).isSome = true → hasCardMeta li2 = true :=
      fun li2 hmem => h li2 (by simp [hmem])
    cases hp : parseFlashcard li with
    | none => simp [itemPass, hp, ih hrest]
    | some qa =>
      have hm : hasCardMeta li = true := h li (by simp) (by simp [hp])
      simp [itemPass, hp, hm, ih hrest]

/-- A second generation run over the output records of a first run creates
no cards. -/
lemma generateFlashcards_second_created (now nowTwo : ℤ) (rs : List NoteRecord) :
    (generateFlashcards nowTwo (generateFlashcards now rs).1).2.created = 0 := by
  induction rs with
  | nil => rfl
  | cons r rs ih =>
    cases hli : r.lineItems with
    | none => simp [generateFlashcards, hli, ih]
    | some lis =>
      have hz : (itemPass nowTwo (itemPass now lis).1).2.created = 0 := by
        apply itemPass_created_zero
        intro li2 hmem hp2
        rw [itemPass_fst] at hmem
        rw [List.mem_map] at hmem
        obtain ⟨li0, _, hli0⟩ := hmem
        subst hli0
        exact genItem_tracked now (by rwa [parseFlashcard_genItem] at hp2)
      simp [generateFlashcards, hli, GenCounts.add, ih, hz]

/-- Claim C10: a line item that already carries card metadata (its `fc_due`
property is set) is left entirely unchanged by flashcard generation — the
pass applies the per-item step to every item, and on an already-tracked
parseable item that step is the identity and bumps only the scanned and
existing counters, not the created counter; consequently running generation
twice in a row creates 0 new cards on the second run. -/
theorem generateFlashcards_frame_idempotent :
    (∀ (now : ℤ) (li : LineItem), hasCardMeta li = true → genItem now li = li) ∧
    (∀ (now : ℤ) (lis : List LineItem), (itemPass now lis).1 = lis.map (genItem now)) ∧
    (∀ (now : ℤ) (li : LineItem) (lis : List LineItem),
      hasCardMeta li = true → (parseFlashcard li).isSome = true →
      (itemPass now (li :: lis)).2.existing = (itemPass now lis).2.existing + 1 ∧
      (itemPass now (li :: lis)).2.created = (itemPass now lis).2.created) ∧
    (∀ (now nowTwo : ℤ) (records : List NoteRecord),
      (generateFlashcards nowTwo (generateFlashcards now records).1).2.created = 0) := by
  refine ⟨fun now li hm => genItem_meta now hm, itemPass_fst, ?_,
    generateFlashcards_second_created⟩
  intro now li lis hm hp
  rw [Option.isSome_iff_exists] at hp
  obtain ⟨qa, hp⟩ := hp
  constructor <;> simp [itemPass, hp, hm]

/-- Witness for C10: a concrete tracked flashcard item is untouched by the
generation step. -/
theorem generateFlashcards_frame_idempotent_witness :
    hasCardMeta (liDue 10 "q::a") = true ∧
    genItem 0 (liDue 10 "q::a") = liDue 10 "q::a" :=
  ⟨by decide, generateFlashcards_frame_idempotent.1 0 (liDue 10 "q::a") (by decide)⟩

end Flashcards
